import Mathlib

/-!
Verification of the Sync Mapping & Real-Time Collaboration Engine
(backend/app/services/sync/sync_mapping_service.py,
backend/app/websocket/connection_manager.py,
backend/app/websocket/sync_websocket.py,
backend/app/api/v1/sync.py).

The Python service is embedded shallowly:

* times and confidence scores are rationals (Python floats in the source;
  every constant the engine compares against is exactly representable),
* UUIDs are `Nat` identifiers drawn from a fresh-id counter (`uuid4` in the
  source only ever needs freshness),
* the database tables `sentence_mappings` and `mapping_edits` are Lean lists
  in insertion order; supabase-style filtered updates become `List.map`,
* the per-sentence read cache (Redis, JSON round-trip) is an association
  list keyed by sentence id,
* `async` methods become state-passing functions; a raised exception that
  escapes a method becomes an `Except.error` result.

Database writes are assumed to succeed in the main model; the read-failure
path of `get_sentence_mapping` is modelled separately with the read result
as an explicit input (see `getMappingFromStore`).
-/

namespace KikoSync

/-- A metadata value as it appears in the JSON metadata dicts of the service
(boolean flags such as `auto_aligned`, numeric values such as `confidence`). -/
inductive MetaVal where
  | b (x : Bool)
  | q (x : ℚ)
deriving DecidableEq, Repr

/-- A metadata dict (`Dict[str, Any]` in the source), as a key/value list. -/
abbrev Metadata := List (String × MetaVal)

/-- One row of the `sentence_mappings` table, mirroring the `mapping_dict`
built in `SyncMappingService.create_sentence_mapping` (timestamps omitted:
no claim mentions them). -/
structure Mapping where
  id : Nat
  sentence_id : Nat
  start_time : ℚ
  end_time : ℚ
  confidence_score : ℚ
  mapping_type : String
  created_by : Nat
  is_active : Bool
  metadata : Metadata
deriving DecidableEq, Repr

/-- One row of the `mapping_edits` table, mirroring the `edit_dict` built in
`SyncMappingService._record_mapping_edit` (id, client_info and created_at
omitted: no claim mentions them). -/
structure Edit where
  sentence_id : Nat
  user_id : Nat
  old_mapping_id : Option Nat
  new_mapping_id : Option Nat
  old_start_time : Option ℚ
  old_end_time : Option ℚ
  new_start_time : ℚ
  new_end_time : ℚ
  edit_type : String
  edit_reason : Option String
deriving DecidableEq, Repr

/-- The persistent state touched by the mapping CRUD operations: the two
tables, the per-sentence mapping cache, and a fresh-id source standing in
for `uuid4()`. -/
structure DBState where
  mappings : List Mapping
  edits : List Edit
  cache : List (Nat × Mapping)
  nextId : Nat
deriving DecidableEq, Repr

/-- The empty store. -/
def DBState.init : DBState := ⟨[], [], [], 0⟩

/-- `SyncMappingService._calculate_confidence` (sync_mapping_service.py
lines 538-556), verbatim: manual = 1.0; ai_generated scored by duration
(0.3 below 1s, 0.6 below 3s, else the base confidence 0.8); otherwise 0.5. -/
def calculateConfidence (mappingType : String) (durationSeconds : ℚ) : ℚ :=
  if mappingType = "manual" then 1
  else if mappingType = "ai_generated" then
    if durationSeconds < 1 then 3/10
    else if durationSeconds < 3 then 3/5
    else 4/5
  else 1/2

/-- Python truthiness for the `metadata or fallback` idiom of the source
(`None` and the empty dict are both falsy). -/
def pyDictOr (a : Option Metadata) (b : Metadata) : Metadata :=
  match a with
  | none => b
  | some d => if d.isEmpty then b else d

/-- Python truthiness for the `edit_reason or "..."` idiom of the source
(`None` and the empty string are both falsy). -/
def pyStrOr (a : Option String) (b : String) : String :=
  match a with
  | none => b
  | some x => if x.isEmpty then b else x

/-- An exception escaping a service method. -/
inductive SvcError where
  | valueError (msg : String)
  | typeError
deriving DecidableEq, Repr

/-- Cache read (`self.cache.get(f"mapping:sentence:...")`): first binding for
the sentence key wins, matching dict/Redis overwrite-on-set semantics. -/
def cacheGet (st : DBState) (s : Nat) : Option Mapping :=
  (st.cache.find? (fun kv => kv.1 == s)).map (fun kv => kv.2)

/-- Cache write (`self.cache.set(...)` / `_update_mapping_cache`): overwrite
is modelled by shadowing, since `cacheGet` takes the first binding. -/
def cacheSet (st : DBState) (s : Nat) (m : Mapping) : DBState :=
  { st with cache := (s, m) :: st.cache }

/-- Effect of `_deactivate_existing_mapping` on one table row: rows matched
by the `WHERE sentence_id = s AND is_active = true` clause get
`is_active = false`, other rows are untouched. -/
def deactivateOne (s : Nat) (m : Mapping) : Mapping :=
  if m.sentence_id == s && m.is_active then { m with is_active := false } else m

/-- `SyncMappingService._deactivate_existing_mapping` (lines 491-498): the
filtered update `UPDATE sentence_mappings SET is_active = false WHERE
sentence_id = s AND is_active = true`. -/
def deactivateExisting (st : DBState) (s : Nat) : DBState :=
  { st with mappings := st.mappings.map (deactivateOne s) }

/-- The database read inside `get_sentence_mapping` (lines 108-114): select
the single active row for the sentence. Under the single-active invariant
the supabase `.single()` call sees at most one row; zero rows make
`result.data` falsy, so the method returns `None`. -/
def dbFindActive (st : DBState) (s : Nat) : Option Mapping :=
  st.mappings.find? (fun m => m.sentence_id == s && m.is_active)

/-- `SyncMappingService.get_sentence_mapping` (lines 96-132), reads
succeeding: cache first, then the database; a database hit refreshes the
cache (TTL is not modelled). -/
def getSentenceMapping (st : DBState) (s : Nat) : Option Mapping × DBState :=
  match cacheGet st s with
  | some m => (some m, st)
  | none =>
    match dbFindActive st s with
    | none => (none, st)
    | some m => (some m, cacheSet st s m)

/-- `SyncMappingService.create_sentence_mapping` (lines 34-94): deactivate
any active mapping for the sentence, compute confidence, insert the new
active row, append one audit row referencing it, refresh the cache. The
fire-and-forget WebSocket broadcast task does not touch this state. -/
def createSentenceMapping (st : DBState) (s : Nat) (startTime endTime : ℚ)
    (userId : Nat) (mappingType : String) (meta : Option Metadata) :
    Mapping × DBState :=
  let st1 := deactivateExisting st s
  let conf := calculateConfidence mappingType (endTime - startTime)
  let mid := st1.nextId
  let m : Mapping := ⟨mid, s, startTime, endTime, conf, mappingType, userId, true, pyDictOr meta []⟩
  let st2 := { st1 with mappings := st1.mappings ++ [m], nextId := mid + 1 }
  let e : Edit := ⟨s, userId, none, some mid, none, none, startTime, endTime, "manual", some "새 매핑 생성"⟩
  let st3 := { st2 with edits := st2.edits ++ [e] }
  (m, cacheSet st3 s m)

/-- `SyncMappingService.update_sentence_mapping` (lines 134-202): look up
the existing mapping (ValueError when absent, re-raised), then the same
deactivate-and-insert protocol as create, with an audit row recording the
old mapping id and times. In the error case no state was mutated. -/
def updateSentenceMapping (st : DBState) (s : Nat) (startTime endTime : ℚ)
    (userId : Nat) (mappingType : String) (editReason : Option String)
    (meta : Option Metadata) : Except SvcError (Mapping × DBState) :=
  match getSentenceMapping st s with
  | (none, _) => .error (.valueError "Mapping not found")
  | (some existing, st1) =>
    let st2 := deactivateExisting st1 s
    let conf := calculateConfidence mappingType (endTime - startTime)
    let nid := st2.nextId
    let m : Mapping :=
      ⟨nid, s, startTime, endTime, conf, mappingType, userId, true, pyDictOr meta existing.metadata⟩
    let st3 := { st2 with mappings := st2.mappings ++ [m], nextId := nid + 1 }
    let e : Edit := ⟨s, userId, some existing.id, some nid, some existing.start_time,
      some existing.end_time, startTime, endTime, "manual", some (pyStrOr editReason "매핑 수정")⟩
    let st4 := { st3 with edits := st3.edits ++ [e] }
    .ok (m, cacheSet st4 s m)

/-- `SyncMappingService.delete_sentence_mapping` (lines 204-242): returns
`False` when no mapping is found. When one is found the method deactivates
it and then calls `_record_mapping_edit` WITHOUT the required
`new_start_time` / `new_end_time` parameters (lines 220-228 vs the
signature at lines 500-511): Python raises `TypeError` at argument binding,
the `except` block at lines 240-242 re-raises it, so no audit row is
appended and the cache-delete and broadcast lines are never reached. -/
def deleteSentenceMapping (st : DBState) (s : Nat) (userId : Nat) :
    Except SvcError Bool × DBState :=
  match getSentenceMapping st s with
  | (none, st1) => (.ok false, st1)
  | (some _, st1) =>
    let st2 := deactivateExisting st1 s
    (.error .typeError, st2)

/-- Outcome of a REST handler: a payload or an HTTP error status. -/
inductive ApiResult (α : Type) where
  | ok (value : α)
  | httpError (statusCode : Nat)
deriving DecidableEq, Repr

/-- The keys of the `mapping_dict` built by `create_sentence_mapping`
(sync_mapping_service.py lines 55-67) and returned to the endpoint. -/
def mappingDictKeys : List String :=
  ["id", "sentence_id", "start_time", "end_time", "confidence_score",
    "mapping_type", "created_by", "is_active", "metadata", "created_at", "updated_at"]

/-- The required (`Field(...)`, no default) fields of
`SentenceMappingResponse` (models/sync.py lines 79-90, with its base
`SentenceMappingBase` at lines 43-46). `mapping_type`, `metadata`,
`created_by` and `is_active` carry defaults and are not required. -/
def sentenceMappingResponseRequiredKeys : List String :=
  ["start_time", "end_time", "id", "sentence_id", "version",
    "confidence_score", "created_at", "updated_at"]

/-- `SentenceMappingResponse(**kwargs)`: pydantic v2 validation succeeds
when every required field is present in the keyword arguments and raises
`ValidationError` — a `ValueError` subclass — otherwise. -/
def buildSentenceMappingResponse (keys : List String) : Except Unit Unit :=
  if sentenceMappingResponseRequiredKeys.all (fun k => keys.contains k) then .ok ()
  else .error ()

/-- `POST /sync/mappings` (api/v1/sync.py lines 35-82), with both of the
handler's real failure paths:

* `start_time >= end_time`: line 54 raises `HTTPException(400)` inside the
  `try`, but this handler — unlike the update and delete handlers (lines
  164-165, 210-211) — has no `except HTTPException` passthrough;
  `HTTPException` is not a `ValueError`, so it falls into
  `except Exception` (lines 77-82) and is replaced by `HTTPException(500)`.
  The service is never called, so no mapping is created.
* `start_time < end_time`: `create_sentence_mapping` runs and persists the
  new mapping, then the handler builds `SentenceMappingResponse(**mapping)`
  (line 69). That validation is modelled by `buildSentenceMappingResponse`
  over the dict's keys: the required `version` field is missing from
  `mapping_dict`, so the pydantic `ValidationError` is caught by
  `except ValueError` (lines 71-76) and becomes `HTTPException(400)` —
  with the mapping already stored. The `.ok` arm below is therefore
  unreachable on the code's actual dict. -/
def apiCreateSentenceMapping (st : DBState) (s : Nat) (startTime endTime : ℚ)
    (userId : Nat) (mappingType : String) (meta : Option Metadata) :
    ApiResult Mapping × DBState :=
  if startTime ≥ endTime then (.httpError 500, st)
  else
    match buildSentenceMappingResponse mappingDictKeys with
    | .ok _ =>
      (.ok (createSentenceMapping st s startTime endTime userId mappingType meta).1,
        (createSentenceMapping st s startTime endTime userId mappingType meta).2)
    | .error _ =>
      (.httpError 400,
        (createSentenceMapping st s startTime endTime userId mappingType meta).2)

/-- `DELETE /sync/mappings/sentence/{id}` (api/v1/sync.py lines 180-217):
`False` from the service becomes HTTP 404; an escaping exception is caught
by the generic handler and becomes HTTP 500. -/
def apiDeleteSentenceMapping (st : DBState) (s : Nat) (userId : Nat) :
    ApiResult Bool × DBState :=
  match deleteSentenceMapping st s userId with
  | (.ok true, st1) => (.ok true, st1)
  | (.ok false, st1) => (.httpError 404, st1)
  | (.error _, st1) => (.httpError 500, st1)

/-- The metadata dict passed by `auto_align_script` (line 476). -/
def autoAlignMeta : Metadata := [("auto_aligned", .b true), ("confidence", .q (7/10))]

/-- The loop body of `auto_align_script` (lines 466-479): sentence `i` in
order gets `[i * tps, (i+1) * tps)` via `create_sentence_mapping` with
type `ai_generated` and the `auto_aligned` metadata. -/
def autoAlignGo (userId : Nat) (timePerSentence : ℚ) :
    List Nat → Nat → DBState → List Mapping × DBState
  | [], _, st => ([], st)
  | s :: rest, i, st =>
    let r1 := createSentenceMapping st s ((i : ℚ) * timePerSentence)
      (((i : ℚ) + 1) * timePerSentence) userId "ai_generated" (some autoAlignMeta)
    let r2 := autoAlignGo userId timePerSentence rest (i + 1) r1.2
    (r1.1 :: r2.1, r2.2)

/-- `SyncMappingService.auto_align_script` (lines 438-485): `sentences` are
the ids of the script's sentences ordered by `order_index` (the database
read at lines 451-455); an empty script returns `[]`, otherwise the audio
duration is split uniformly. -/
def autoAlignScript (st : DBState) (sentences : List Nat) (audioDuration : ℚ)
    (userId : Nat) : List Mapping × DBState :=
  if sentences.isEmpty then ([], st)
  else autoAlignGo userId (audioDuration / (sentences.length : ℚ)) sentences 0 st

/-- A mapping CRUD call with its arguments, for reasoning about sequential
call sequences. -/
inductive Op where
  | create (s : Nat) (startTime endTime : ℚ) (userId : Nat)
      (mappingType : String) (meta : Option Metadata)
  | update (s : Nat) (startTime endTime : ℚ) (userId : Nat)
      (mappingType : String) (reason : Option String) (meta : Option Metadata)
  | delete (s : Nat) (userId : Nat)
deriving DecidableEq, Repr

/-- The sentence a call targets. -/
def Op.sentenceOf : Op → Nat
  | .create s _ _ _ _ _ => s
  | .update s _ _ _ _ _ _ => s
  | .delete s _ => s

/-- The (start, end, type, actor) arguments of a create/update call. -/
structure CUArgs where
  start_time : ℚ
  end_time : ℚ
  mapping_type : String
  created_by : Nat
deriving DecidableEq, Repr

/-- Arguments of a call, when it is a create or update. -/
def Op.cuArgs : Op → Option CUArgs
  | .create _ a b uid mt _ => some ⟨a, b, mt, uid⟩
  | .update _ a b uid mt _ _ => some ⟨a, b, mt, uid⟩
  | .delete _ _ => none

/-- Run one service call; the `Bool` records whether it succeeded (returned
normally). A failed update raised before mutating anything, so the state
is the input state; a failed delete has already deactivated the mapping
when the `TypeError` is raised. -/
def applyOp (st : DBState) (op : Op) : Bool × DBState :=
  match op with
  | .create s a b uid mt meta =>
    (true, (createSentenceMapping st s a b uid mt meta).2)
  | .update s a b uid mt reason meta =>
    match updateSentenceMapping st s a b uid mt reason meta with
    | .ok r => (true, r.2)
    | .error _ => (false, st)
  | .delete s uid =>
    match deleteSentenceMapping st s uid with
    | (.ok ok, st1) => (ok, st1)
    | (.error _, st1) => (false, st1)

/-- Run a sequence of calls, returning the final state and the log of calls
paired with their success flags, in call order. -/
def runTrace (st : DBState) : List Op → DBState × List (Op × Bool)
  | [] => (st, [])
  | op :: rest =>
    let r := applyOp st op
    let rf := runTrace r.2 rest
    (rf.1, (op, r.1) :: rf.2)

/-- The arguments of the most recent successful create or update call for
sentence `s` in a log. -/
def lastSuccessfulCU (s : Nat) : List (Op × Bool) → Option CUArgs
  | [] => none
  | (op, ok) :: rest =>
    match lastSuccessfulCU s rest with
    | some a => some a
    | none => if ok ∧ op.sentenceOf = s then op.cuArgs else none

/-- The active `sentence_mappings` rows for a sentence. -/
def activeFor (st : DBState) (s : Nat) : List Mapping :=
  st.mappings.filter (fun m => m.sentence_id == s && m.is_active)

/-- The `mapping_edits` rows for a sentence. -/
def editsFor (st : DBState) (s : Nat) : List Edit :=
  st.edits.filter (fun e => e.sentence_id == s)

/-- The number of successful calls targeting sentence `s` in a log. -/
def successCountFor (s : Nat) (log : List (Op × Bool)) : Nat :=
  (log.filter (fun p => p.2 && p.1.sentenceOf == s)).length

/-- A mapping row carries exactly the arguments of a create/update call. -/
def Mapping.matchesArgs (m : Mapping) (a : CUArgs) : Prop :=
  m.start_time = a.start_time ∧ m.end_time = a.end_time ∧
    m.mapping_type = a.mapping_type ∧ m.created_by = a.created_by

/-! ### Bookkeeping lemmas for the active-mapping rows -/

theorem deactivateOne_pred_self (s : Nat) (m : Mapping) :
    ((deactivateOne s m).sentence_id == s && (deactivateOne s m).is_active) = false := by
  unfold deactivateOne
  by_cases h : (m.sentence_id == s && m.is_active) = true
  · rw [if_pos h]
    simp
  · rw [if_neg h]
    simpa using h

theorem deactivateOne_pred_ne (s t : Nat) (h : s ≠ t) (m : Mapping) :
    ((deactivateOne s m).sentence_id == t && (deactivateOne s m).is_active)
      = (m.sentence_id == t && m.is_active) := by
  unfold deactivateOne
  by_cases h1 : (m.sentence_id == s && m.is_active) = true
  · have hs : m.sentence_id = s := by
      simp only [Bool.and_eq_true, beq_iff_eq] at h1
      exact h1.1
    have ha : m.is_active = true := by
      simp only [Bool.and_eq_true] at h1
      exact h1.2
    have ht : (m.sentence_id == t) = false := by
      subst hs
      simpa using h
    rw [if_pos h1]
    simp [ht, ha]
  · rw [if_neg h1]

theorem deactivateOne_id_of_pred_false (s : Nat) (m : Mapping)
    (h : (m.sentence_id == s) = false) : deactivateOne s m = m := by
  unfold deactivateOne
  rw [if_neg]
  simp [h]

theorem filter_deactivate_self (l : List Mapping) (s : Nat) :
    (l.map (deactivateOne s)).filter (fun m => m.sentence_id == s && m.is_active) = [] := by
  induction l with
  | nil => rfl
  | cons m rest ih =>
    rw [List.map_cons, List.filter_cons]
    simp only [deactivateOne_pred_self]
    simpa using ih

theorem filter_deactivate_ne (l : List Mapping) (s t : Nat) (h : s ≠ t) :
    (l.map (deactivateOne s)).filter (fun m => m.sentence_id == t && m.is_active)
      = l.filter (fun m => m.sentence_id == t && m.is_active) := by
  induction l with
  | nil => rfl
  | cons m rest ih =>
    rw [List.map_cons, List.filter_cons, List.filter_cons]
    simp only [deactivateOne_pred_ne s t h]
    by_cases h1 : (m.sentence_id == t && m.is_active) = true
    · have hm : deactivateOne s m = m := by
        apply deactivateOne_id_of_pred_false
        have ht : m.sentence_id = t := by
          simp only [Bool.and_eq_true, beq_iff_eq] at h1
          exact h1.1
        subst ht
        simpa using fun hh => h hh.symm
      rw [if_pos h1, if_pos h1, hm, ih]
    · rw [if_neg h1, if_neg h1, ih]

theorem cacheSet_mappings (st : DBState) (s : Nat) (m : Mapping) :
    (cacheSet st s m).mappings = st.mappings := rfl

theorem getSentenceMapping_snd_mappings (st : DBState) (s : Nat) :
    ((getSentenceMapping st s).2).mappings = st.mappings := by
  unfold getSentenceMapping
  cases hc : cacheGet st s with
  | some m => rfl
  | none =>
    cases hd : dbFindActive st s with
    | none => rfl
    | some m => rfl

theorem getSentenceMapping_snd_edits (st : DBState) (s : Nat) :
    ((getSentenceMapping st s).2).edits = st.edits := by
  unfold getSentenceMapping
  cases hc : cacheGet st s with
  | some m => rfl
  | none =>
    cases hd : dbFindActive st s with
    | none => rfl
    | some m => rfl

theorem activeFor_eq_of_mappings_eq {st st₂ : DBState} (h : st.mappings = st₂.mappings)
    (s : Nat) : activeFor st s = activeFor st₂ s := by
  unfold activeFor
  rw [h]

theorem activeFor_deactivateExisting_self (st : DBState) (s : Nat) :
    activeFor (deactivateExisting st s) s = [] :=
  filter_deactivate_self st.mappings s

theorem activeFor_deactivateExisting_ne (st : DBState) (s t : Nat) (h : s ≠ t) :
    activeFor (deactivateExisting st s) t = activeFor st t :=
  filter_deactivate_ne st.mappings s t h

theorem createSentenceMapping_fst (st : DBState) (s : Nat) (a b : ℚ) (uid : Nat)
    (mt : String) (meta : Option Metadata) :
    (createSentenceMapping st s a b uid mt meta).1 =
      ⟨st.nextId, s, a, b, calculateConfidence mt (b - a), mt, uid, true, pyDictOr meta []⟩ := rfl

theorem createSentenceMapping_snd_mappings (st : DBState) (s : Nat) (a b : ℚ) (uid : Nat)
    (mt : String) (meta : Option Metadata) :
    (createSentenceMapping st s a b uid mt meta).2.mappings =
      st.mappings.map (deactivateOne s) ++ [(createSentenceMapping st s a b uid mt meta).1] := rfl

theorem createSentenceMapping_snd_edits (st : DBState) (s : Nat) (a b : ℚ) (uid : Nat)
    (mt : String) (meta : Option Metadata) :
    (createSentenceMapping st s a b uid mt meta).2.edits =
      st.edits ++ [⟨s, uid, none, some st.nextId, none, none, a, b, "manual", some "새 매핑 생성"⟩] := rfl

theorem activeFor_create_self (st : DBState) (s : Nat) (a b : ℚ) (uid : Nat)
    (mt : String) (meta : Option Metadata) :
    activeFor (createSentenceMapping st s a b uid mt meta).2 s
      = [(createSentenceMapping st s a b uid mt meta).1] := by
  unfold activeFor
  rw [createSentenceMapping_snd_mappings, List.filter_append, filter_deactivate_self,
    createSentenceMapping_fst]
  simp

theorem activeFor_create_ne (st : DBState) (s : Nat) (a b : ℚ) (uid : Nat)
    (mt : String) (meta : Option Metadata) (t : Nat) (h : s ≠ t) :
    activeFor (createSentenceMapping st s a b uid mt meta).2 t = activeFor st t := by
  unfold activeFor
  rw [createSentenceMapping_snd_mappings, List.filter_append, filter_deactivate_ne _ _ _ h,
    createSentenceMapping_fst]
  simp [show (s == t) = false from by simpa using h]

theorem createSentenceMapping_fst_matches (st : DBState) (s : Nat) (a b : ℚ) (uid : Nat)
    (mt : String) (meta : Option Metadata) :
    (createSentenceMapping st s a b uid mt meta).1.matchesArgs ⟨a, b, mt, uid⟩ := by
  rw [createSentenceMapping_fst]
  exact ⟨rfl, rfl, rfl, rfl⟩

theorem getSentenceMapping_snd_nextId (st : DBState) (s : Nat) :
    ((getSentenceMapping st s).2).nextId = st.nextId := by
  unfold getSentenceMapping
  cases hc : cacheGet st s with
  | some m => rfl
  | none =>
    cases hd : dbFindActive st s with
    | none => rfl
    | some m => rfl

theorem updateSentenceMapping_ok (st : DBState) (s : Nat) (a b : ℚ) (uid : Nat)
    (mt : String) (reason : Option String) (meta : Option Metadata) (m : Mapping)
    (st₂ : DBState)
    (h : updateSentenceMapping st s a b uid mt reason meta = .ok (m, st₂)) :
    ∃ ex : Mapping,
      (getSentenceMapping st s).1 = some ex ∧
      m = ⟨st.nextId, s, a, b, calculateConfidence mt (b - a), mt, uid, true,
        pyDictOr meta ex.metadata⟩ ∧
      st₂.mappings = st.mappings.map (deactivateOne s) ++ [m] ∧
      st₂.edits = st.edits ++ [⟨s, uid, some ex.id, some st.nextId, some ex.start_time,
        some ex.end_time, a, b, "manual", some (pyStrOr reason "매핑 수정")⟩] := by
  unfold updateSentenceMapping at h
  rcases hg : getSentenceMapping st s with ⟨o, st1⟩
  rw [hg] at h
  cases o with
  | none => exact absurd h (by simp)
  | some ex =>
    refine ⟨ex, rfl, ?_⟩
    have hm : st1.mappings = st.mappings := by
      have := getSentenceMapping_snd_mappings st s
      rw [hg] at this
      exact this
    have he : st1.edits = st.edits := by
      have := getSentenceMapping_snd_edits st s
      rw [hg] at this
      exact this
    have hn : st1.nextId = st.nextId := by
      have := getSentenceMapping_snd_nextId st s
      rw [hg] at this
      exact this
    simp only [Except.ok.injEq, Prod.mk.injEq] at h
    obtain ⟨hm1, hst⟩ := h
    constructor
    · rw [← hm1]
      simp [deactivateExisting, hn]
    · constructor
      · rw [← hst, ← hm1]
        simp [cacheSet, deactivateExisting, hm]
      · rw [← hst]
        simp [cacheSet, deactivateExisting, he, hn]

theorem deleteSentenceMapping_cases (st : DBState) (s : Nat) (uid : Nat) :
    ((getSentenceMapping st s).1 = none ∧
      deleteSentenceMapping st s uid = (.ok false, (getSentenceMapping st s).2)) ∨
    (∃ ex, (getSentenceMapping st s).1 = some ex ∧
      deleteSentenceMapping st s uid
        = (.error .typeError, deactivateExisting (getSentenceMapping st s).2 s)) := by
  unfold deleteSentenceMapping
  rcases hg : getSentenceMapping st s with ⟨o, st1⟩
  cases o with
  | none =>
    left
    exact ⟨rfl, rfl⟩
  | some ex =>
    right
    exact ⟨ex, rfl, rfl⟩

theorem lastSuccessfulCU_cons (s : Nat) (op : Op) (ok : Bool) (log : List (Op × Bool)) :
    lastSuccessfulCU s ((op, ok) :: log) =
      match lastSuccessfulCU s log with
      | some a => some a
      | none => if ok ∧ op.sentenceOf = s then op.cuArgs else none := rfl

theorem applyOp_active_shape (st : DBState) (op : Op) (s : Nat) :
    (op.sentenceOf = s ∧ (applyOp st op).1 = true ∧
       ∃ a, op.cuArgs = some a ∧
         ∃ m, activeFor (applyOp st op).2 s = [m] ∧ m.matchesArgs a) ∨
    ((applyOp st op).1 = false ∧ (applyOp st op).2 = st) ∨
    (op.cuArgs = none ∧
      (activeFor (applyOp st op).2 s = activeFor st s ∨ activeFor (applyOp st op).2 s = [])) ∨
    (op.sentenceOf ≠ s ∧ activeFor (applyOp st op).2 s = activeFor st s) := by
  cases op with
  | create sc a b uid mt meta =>
    by_cases hs : sc = s
    · subst hs
      left
      exact ⟨rfl, rfl, ⟨a, b, mt, uid⟩, rfl,
        (createSentenceMapping st sc a b uid mt meta).1,
        activeFor_create_self st sc a b uid mt meta,
        createSentenceMapping_fst_matches st sc a b uid mt meta⟩
    · right; right; right
      exact ⟨hs, activeFor_create_ne st sc a b uid mt meta s hs⟩
  | update sc a b uid mt reason meta =>
    cases hr : updateSentenceMapping st sc a b uid mt reason meta with
    | error e =>
      right; left
      constructor
      · simp [applyOp, hr]
      · simp [applyOp, hr]
    | ok r =>
      obtain ⟨m, st₂⟩ := r
      obtain ⟨ex, hex, hm, hmap, hed⟩ :=
        updateSentenceMapping_ok st sc a b uid mt reason meta m st₂ hr
      have h2 : (applyOp st (.update sc a b uid mt reason meta)).2 = st₂ := by
        simp [applyOp, hr]
      by_cases hs : sc = s
      · subst hs
        left
        refine ⟨rfl, by simp [applyOp, hr], ⟨a, b, mt, uid⟩, rfl, m, ?_, ?_⟩
        · rw [h2]
          unfold activeFor
          rw [hmap, List.filter_append, filter_deactivate_self, hm]
          simp
        · rw [hm]
          exact ⟨rfl, rfl, rfl, rfl⟩
      · right; right; right
        refine ⟨hs, ?_⟩
        rw [h2]
        unfold activeFor
        rw [hmap, List.filter_append, filter_deactivate_ne _ _ _ hs, hm]
        simp [show (sc == s) = false from by simpa using hs]
  | delete sc uid =>
    right; right; left
    refine ⟨rfl, ?_⟩
    rcases deleteSentenceMapping_cases st sc uid with ⟨hn, heq⟩ | ⟨ex, hex, heq⟩
    · left
      have h2 : (applyOp st (.delete sc uid)).2 = (getSentenceMapping st sc).2 := by
        simp [applyOp, heq]
      rw [h2]
      exact activeFor_eq_of_mappings_eq (getSentenceMapping_snd_mappings st sc) s
    · have h2 : (applyOp st (.delete sc uid)).2
          = deactivateExisting (getSentenceMapping st sc).2 sc := by
        simp [applyOp, heq]
      by_cases hs : sc = s
      · subst hs
        right
        rw [h2]
        exact activeFor_deactivateExisting_self _ sc
      · left
        rw [h2, activeFor_deactivateExisting_ne _ _ _ hs]
        exact activeFor_eq_of_mappings_eq (getSentenceMapping_snd_mappings st sc) s

theorem runTrace_active_aux (ops : List Op) (s : Nat) :
    ∀ st : DBState,
      (activeFor st s = [] ∨ ∃ m0, activeFor st s = [m0]) →
      (activeFor (runTrace st ops).1 s = [] ∨
        ∃ m, activeFor (runTrace st ops).1 s = [m] ∧
          ((∃ a, lastSuccessfulCU s (runTrace st ops).2 = some a ∧ m.matchesArgs a) ∨
           (lastSuccessfulCU s (runTrace st ops).2 = none ∧ activeFor st s = [m]))) := by
  induction ops with
  | nil =>
    intro st h
    rcases h with h | ⟨m0, h⟩
    · exact Or.inl h
    · exact Or.inr ⟨m0, h, Or.inr ⟨rfl, h⟩⟩
  | cons op rest ih =>
    intro st h
    have hshape := applyOp_active_shape st op s
    have hrun : runTrace st (op :: rest) =
        ((runTrace (applyOp st op).2 rest).1,
          (op, (applyOp st op).1) :: (runTrace (applyOp st op).2 rest).2) := rfl
    rw [hrun]
    have hst1 : activeFor (applyOp st op).2 s = [] ∨
        ∃ m0, activeFor (applyOp st op).2 s = [m0] := by
      rcases hshape with ⟨_, _, _, _, m1, hm1, _⟩ | ⟨_, he⟩ | ⟨_, hp | hp⟩ | ⟨_, hp⟩
      · exact Or.inr ⟨m1, hm1⟩
      · rw [he]; exact h
      · rw [hp]; exact h
      · exact Or.inl hp
      · rw [hp]; exact h
    rcases ih (applyOp st op).2 hst1 with hf | ⟨m, hf, hP⟩
    · exact Or.inl hf
    · refine Or.inr ⟨m, hf, ?_⟩
      rcases hP with ⟨a, hla, hma⟩ | ⟨hnone, hst1m⟩
      · left
        refine ⟨a, ?_, hma⟩
        rw [lastSuccessfulCU_cons, hla]
      · rcases hshape with ⟨hsent, hoktrue, a, hargs, m1, hact1, hm1match⟩ |
          ⟨hokfalse, hsteq⟩ | ⟨hcunone, hpre | hempty⟩ | ⟨hsent, hpre⟩
        · left
          have hm1 : m1 = m := by
            have := hact1.symm.trans hst1m
            simpa using this
          refine ⟨a, ?_, hm1 ▸ hm1match⟩
          rw [lastSuccessfulCU_cons, hnone]
          rw [if_pos ⟨hoktrue, hsent⟩]
          exact hargs
        · right
          constructor
          · rw [lastSuccessfulCU_cons, hnone]
            simp [hokfalse]
          · rw [← hsteq]
            exact hst1m
        · right
          constructor
          · rw [lastSuccessfulCU_cons, hnone, hcunone]
            simp
          · rw [← hpre]
            exact hst1m
        · exact absurd (hempty.symm.trans hst1m) (by simp)
        · right
          constructor
          · rw [lastSuccessfulCU_cons, hnone]
            rw [if_neg (fun hc => hsent hc.2)]
          · rw [← hpre]
            exact hst1m

/-- C1: after any sequential run of mapping create/update/delete calls on
the empty store, at most one `sentence_mappings` row for a given sentence
has `is_active = true`, and any such row carries exactly the start_time,
end_time, mapping_type and created_by arguments of the most recent
successful create or update call for that sentence. -/
theorem C1_single_active_invariant (ops : List Op) (s : Nat) :
    (activeFor (runTrace DBState.init ops).1 s).length ≤ 1 ∧
    ∀ m ∈ activeFor (runTrace DBState.init ops).1 s,
      ∃ a, lastSuccessfulCU s (runTrace DBState.init ops).2 = some a ∧
        m.matchesArgs a := by
  have h := runTrace_active_aux ops s DBState.init (Or.inl rfl)
  rcases h with h | ⟨m, hm, hP⟩
  · rw [h]
    exact ⟨by simp, by simp⟩
  · rw [hm]
    refine ⟨by simp, ?_⟩
    intro x hx
    have hxm : x = m := by simpa using hx
    subst hxm
    rcases hP with ⟨a, hla, hma⟩ | ⟨_, hbad⟩
    · exact ⟨a, hla, hma⟩
    · exact absurd hbad (by simp [DBState.init, activeFor])

/-- Witness for C1: one concrete create call; the single active row for
sentence 0 carries the call's arguments. -/
theorem C1_single_active_invariant_witness :
    (⟨0, 0, 1, 2, 1, "manual", 7, true, []⟩ : Mapping) ∈
        activeFor (runTrace DBState.init [Op.create 0 1 2 7 "manual" none]).1 0 ∧
    ∃ a, lastSuccessfulCU 0 (runTrace DBState.init [Op.create 0 1 2 7 "manual" none]).2
        = some a ∧
      Mapping.matchesArgs ⟨0, 0, 1, 2, 1, "manual", 7, true, []⟩ a := by
  constructor
  · decide
  · exact (C1_single_active_invariant [Op.create 0 1 2 7 "manual" none] 0).2 _ (by decide)

/-! ### Audit-trail bookkeeping -/

theorem successCountFor_cons (t : Nat) (op : Op) (ok : Bool) (log : List (Op × Bool)) :
    successCountFor t ((op, ok) :: log)
      = (if ok && (op.sentenceOf == t) then 1 else 0) + successCountFor t log := by
  unfold successCountFor
  rw [List.filter_cons]
  by_cases h : (ok && (op.sentenceOf == t)) = true
  · rw [if_pos h, if_pos h]
    simp [Nat.add_comm]
  · rw [if_neg h, if_neg h]
    simp

theorem editsFor_append_single (st : DBState) (e : Edit) (l : List Edit) (t : Nat)
    (h : st.edits = l ++ [e]) :
    (editsFor st t).length
      = (l.filter (fun x => x.sentence_id == t)).length
        + (if e.sentence_id == t then 1 else 0) := by
  unfold editsFor
  rw [h, List.filter_append]
  by_cases hp : (e.sentence_id == t) = true
  · simp [hp]
  · simp [hp]

theorem applyOp_edits_shape (st : DBState) (op : Op) (t : Nat) :
    (editsFor (applyOp st op).2 t).length
      = (editsFor st t).length
        + (if (applyOp st op).1 && (op.sentenceOf == t) then 1 else 0) := by
  cases op with
  | create sc a b uid mt meta =>
    have h := editsFor_append_single (applyOp st (.create sc a b uid mt meta)).2
      ⟨sc, uid, none, some st.nextId, none, none, a, b, "manual", some "새 매핑 생성"⟩
      st.edits t (createSentenceMapping_snd_edits st sc a b uid mt meta)
    rw [h]
    rfl
  | update sc a b uid mt reason meta =>
    cases hr : updateSentenceMapping st sc a b uid mt reason meta with
    | error e =>
      have h2 : applyOp st (.update sc a b uid mt reason meta) = (false, st) := by
        simp [applyOp, hr]
      rw [h2]
      simp
    | ok r =>
      obtain ⟨m, st₂⟩ := r
      obtain ⟨ex, hex, hm, hmap, hed⟩ :=
        updateSentenceMapping_ok st sc a b uid mt reason meta m st₂ hr
      have h2 : applyOp st (.update sc a b uid mt reason meta) = (true, st₂) := by
        simp [applyOp, hr]
      rw [h2]
      have h := editsFor_append_single st₂
        ⟨sc, uid, some ex.id, some st.nextId, some ex.start_time, some ex.end_time,
          a, b, "manual", some (pyStrOr reason "매핑 수정")⟩ st.edits t hed
      rw [h]
      rfl
  | delete sc uid =>
    rcases deleteSentenceMapping_cases st sc uid with ⟨hn, heq⟩ | ⟨ex, hex, heq⟩
    · have h2 : applyOp st (.delete sc uid) = (false, (getSentenceMapping st sc).2) := by
        simp [applyOp, heq]
      rw [h2]
      unfold editsFor
      rw [getSentenceMapping_snd_edits]
      simp
    · have h2 : applyOp st (.delete sc uid)
          = (false, deactivateExisting (getSentenceMapping st sc).2 sc) := by
        simp [applyOp, heq]
      have hfst : (applyOp st (.delete sc uid)).1 = false := by rw [h2]
      have hed : (applyOp st (.delete sc uid)).2.edits = st.edits := by
        rw [h2]
        show (deactivateExisting (getSentenceMapping st sc).2 sc).edits = st.edits
        show (getSentenceMapping st sc).2.edits = st.edits
        exact getSentenceMapping_snd_edits st sc
      unfold editsFor
      rw [hed, hfst]
      simp

theorem runTrace_edits_count (ops : List Op) (t : Nat) :
    ∀ st : DBState,
      (editsFor (runTrace st ops).1 t).length
        = (editsFor st t).length + successCountFor t (runTrace st ops).2 := by
  induction ops with
  | nil =>
    intro st
    rfl
  | cons op rest ih =>
    intro st
    have h1 := ih (applyOp st op).2
    have h2 := applyOp_edits_shape st op t
    have hfst : (runTrace st (op :: rest)).1 = (runTrace (applyOp st op).2 rest).1 := rfl
    have hsnd : (runTrace st (op :: rest)).2
        = (op, (applyOp st op).1) :: (runTrace (applyOp st op).2 rest).2 := rfl
    rw [hfst, hsnd, successCountFor_cons]
    omega

/-- Every audit row that carries a `new_mapping_id` points at a stored
mapping row with that id, for the same sentence and with exactly the
audit row's new start/end times — i.e. the mapping made active by the
call that wrote the audit row. -/
def EditRefsOK (st : DBState) : Prop :=
  ∀ e ∈ st.edits, ∀ i, e.new_mapping_id = some i →
    ∃ m, m ∈ st.mappings ∧ m.id = i ∧ m.sentence_id = e.sentence_id ∧
      m.start_time = e.new_start_time ∧ m.end_time = e.new_end_time

theorem deactivateOne_id (s : Nat) (m : Mapping) : (deactivateOne s m).id = m.id := by
  unfold deactivateOne
  split <;> rfl

theorem deactivateOne_sentence (s : Nat) (m : Mapping) :
    (deactivateOne s m).sentence_id = m.sentence_id := by
  unfold deactivateOne
  split <;> rfl

theorem deactivateOne_start (s : Nat) (m : Mapping) :
    (deactivateOne s m).start_time = m.start_time := by
  unfold deactivateOne
  split <;> rfl

theorem deactivateOne_end (s : Nat) (m : Mapping) :
    (deactivateOne s m).end_time = m.end_time := by
  unfold deactivateOne
  split <;> rfl

/-- Transport an `EditRefsOK`-style witness through deactivation plus an
appended row. -/
theorem editRef_transport (l : List Mapping) (s : Nat) (tail : List Mapping)
    (m : Mapping) (hm : m ∈ l) (i : Nat) (hid : m.id = i) (sid : Nat)
    (hsid : m.sentence_id = sid) (a : ℚ) (ha : m.start_time = a) (b : ℚ)
    (hb : m.end_time = b) :
    ∃ m₂, m₂ ∈ l.map (deactivateOne s) ++ tail ∧ m₂.id = i ∧
      m₂.sentence_id = sid ∧ m₂.start_time = a ∧ m₂.end_time = b := by
  refine ⟨deactivateOne s m, ?_, ?_, ?_, ?_, ?_⟩
  · exact List.mem_append_left _ (List.mem_map_of_mem _ hm)
  · rw [deactivateOne_id, hid]
  · rw [deactivateOne_sentence, hsid]
  · rw [deactivateOne_start, ha]
  · rw [deactivateOne_end, hb]

theorem applyOp_preserves_EditRefsOK (st : DBState) (op : Op) (h : EditRefsOK st) :
    EditRefsOK (applyOp st op).2 := by
  cases op with
  | create sc a b uid mt meta =>
    intro e he i hi
    rw [show (applyOp st (.create sc a b uid mt meta)).2.edits
        = (createSentenceMapping st sc a b uid mt meta).2.edits from rfl,
      createSentenceMapping_snd_edits] at he
    rw [show (applyOp st (.create sc a b uid mt meta)).2.mappings
        = (createSentenceMapping st sc a b uid mt meta).2.mappings from rfl,
      createSentenceMapping_snd_mappings]
    rcases List.mem_append.mp he with hold | hnew
    · obtain ⟨m, hm, hid, hsid, ha, hb⟩ := h e hold i hi
      exact editRef_transport st.mappings sc _ m hm i hid _ hsid _ ha _ hb
    · have he2 : e = ⟨sc, uid, none, some st.nextId, none, none, a, b, "manual",
          some "새 매핑 생성"⟩ := by simpa using hnew
      subst he2
      have hi2 : i = st.nextId := by
        simpa using hi.symm
      subst hi2
      refine ⟨(createSentenceMapping st sc a b uid mt meta).1,
        List.mem_append_right _ (by simp), ?_, ?_, ?_, ?_⟩
      · rw [createSentenceMapping_fst]
      · rw [createSentenceMapping_fst]
      · rw [createSentenceMapping_fst]
      · rw [createSentenceMapping_fst]
  | update sc a b uid mt reason meta =>
    cases hr : updateSentenceMapping st sc a b uid mt reason meta with
    | error er =>
      have h2 : applyOp st (.update sc a b uid mt reason meta) = (false, st) := by
        simp [applyOp, hr]
      rw [h2]
      exact h
    | ok r =>
      obtain ⟨m, st₂⟩ := r
      obtain ⟨ex, hex, hm, hmap, hed⟩ :=
        updateSentenceMapping_ok st sc a b uid mt reason meta m st₂ hr
      have h2 : applyOp st (.update sc a b uid mt reason meta) = (true, st₂) := by
        simp [applyOp, hr]
      rw [h2]
      intro e he i hi
      rw [hed] at he
      rw [hmap]
      rcases List.mem_append.mp he with hold | hnew
      · obtain ⟨m₀, hm0, hid, hsid, ha, hb⟩ := h e hold i hi
        exact editRef_transport st.mappings sc _ m₀ hm0 i hid _ hsid _ ha _ hb
      · have he2 : e = ⟨sc, uid, some ex.id, some st.nextId, some ex.start_time,
            some ex.end_time, a, b, "manual", some (pyStrOr reason "매핑 수정")⟩ := by
          simpa using hnew
        subst he2
        have hi2 : i = st.nextId := by
          simpa using hi.symm
        subst hi2
        refine ⟨m, List.mem_append_right _ (by simp), ?_, ?_, ?_, ?_⟩
        · rw [hm]
        · rw [hm]
        · rw [hm]
        · rw [hm]
  | delete sc uid =>
    rcases deleteSentenceMapping_cases st sc uid with ⟨hn, heq⟩ | ⟨ex, hex, heq⟩
    · have h2 : applyOp st (.delete sc uid) = (false, (getSentenceMapping st sc).2) := by
        simp [applyOp, heq]
      rw [h2]
      intro e he i hi
      rw [show ((false, (getSentenceMapping st sc).2) : Bool × DBState).2.edits
          = (getSentenceMapping st sc).2.edits from rfl,
        getSentenceMapping_snd_edits] at he
      obtain ⟨m, hmem, hid, hsid, ha, hb⟩ := h e he i hi
      refine ⟨m, ?_, hid, hsid, ha, hb⟩
      show m ∈ (getSentenceMapping st sc).2.mappings
      rw [getSentenceMapping_snd_mappings]
      exact hmem
    · have h2 : applyOp st (.delete sc uid)
          = (false, deactivateExisting (getSentenceMapping st sc).2 sc) := by
        simp [applyOp, heq]
      rw [h2]
      intro e he i hi
      have he2 : e ∈ st.edits := by
        rw [show ((false, deactivateExisting (getSentenceMapping st sc).2 sc) :
            Bool × DBState).2.edits = (getSentenceMapping st sc).2.edits from rfl,
          getSentenceMapping_snd_edits] at he
        exact he
      obtain ⟨m, hmem, hid, hsid, ha, hb⟩ := h e he2 i hi
      have hmem2 : m ∈ (getSentenceMapping st sc).2.mappings := by
        rw [getSentenceMapping_snd_mappings]
        exact hmem
      have := editRef_transport (getSentenceMapping st sc).2.mappings sc []
        m hmem2 i hid _ hsid _ ha _ hb
      obtain ⟨m₂, hmem3, p1, p2, p3, p4⟩ := this
      refine ⟨m₂, ?_, p1, p2, p3, p4⟩
      show m₂ ∈ (deactivateExisting (getSentenceMapping st sc).2 sc).mappings
      have : (deactivateExisting (getSentenceMapping st sc).2 sc).mappings
          = (getSentenceMapping st sc).2.mappings.map (deactivateOne sc) := rfl
      rw [this]
      simpa using hmem3

theorem runTrace_EditRefsOK (ops : List Op) :
    ∀ st : DBState, EditRefsOK st → EditRefsOK (runTrace st ops).1 := by
  induction ops with
  | nil =>
    intro st h
    exact h
  | cons op rest ih =>
    intro st h
    exact ih (applyOp st op).2 (applyOp_preserves_EditRefsOK st op h)

/-- C2: after any sequential run of mapping calls on the empty store, the
number of `mapping_edits` rows for a sentence equals the number of
successful create/update/delete calls for that sentence (a successful
create or update appends exactly one audit row; delete appends none when
it fails, and every delete of an existing mapping fails with `TypeError`,
see `deleteSentenceMapping`), and every audit row carrying a
`new_mapping_id` points at the stored mapping row with that id — the
mapping made active by that call, for the same sentence and with the audit
row's new start/end times. -/
theorem C2_audit_completeness (ops : List Op) (s : Nat) :
    (editsFor (runTrace DBState.init ops).1 s).length
      = successCountFor s (runTrace DBState.init ops).2 ∧
    ∀ e ∈ editsFor (runTrace DBState.init ops).1 s, ∀ i, e.new_mapping_id = some i →
      ∃ m, m ∈ (runTrace DBState.init ops).1.mappings ∧ m.id = i ∧
        m.sentence_id = e.sentence_id ∧ m.start_time = e.new_start_time ∧
        m.end_time = e.new_end_time := by
  constructor
  · have h := runTrace_edits_count ops s DBState.init
    simpa [editsFor, DBState.init] using h
  · intro e he i hi
    have hOK : EditRefsOK (runTrace DBState.init ops).1 := by
      refine runTrace_EditRefsOK ops DBState.init ?_
      intro e2 he2 i2 hi2
      simp [DBState.init] at he2
    exact hOK e (List.mem_filter.mp he).1 i hi

/-- Witness for C2: a create followed by a (failing) delete yields exactly
one audit row, matching the one successful call, and its new_mapping_id
resolves to the created mapping. -/
theorem C2_audit_completeness_witness :
    (editsFor (runTrace DBState.init
        [Op.create 0 1 2 7 "manual" none, Op.delete 0 9]).1 0).length
      = successCountFor 0 (runTrace DBState.init
        [Op.create 0 1 2 7 "manual" none, Op.delete 0 9]).2 ∧
    ∃ m, m ∈ (runTrace DBState.init
        [Op.create 0 1 2 7 "manual" none, Op.delete 0 9]).1.mappings ∧
      m.id = 0 ∧ m.sentence_id = 0 ∧ m.start_time = 1 ∧ m.end_time = 2 := by
  refine ⟨(C2_audit_completeness [Op.create 0 1 2 7 "manual" none, Op.delete 0 9] 0).1, ?_⟩
  exact (C2_audit_completeness [Op.create 0 1 2 7 "manual" none, Op.delete 0 9] 0).2
    ⟨0, 7, none, some 0, none, none, 1, 2, "manual", some "새 매핑 생성"⟩
    (by decide) 0 (by decide)

/-! ### Confidence-scoring helper lemmas -/

theorem calculateConfidence_manual (d : ℚ) : calculateConfidence "manual" d = 1 := rfl

theorem calculateConfidence_ai_lt1 (d : ℚ) (h : d < 1) :
    calculateConfidence "ai_generated" d = 3/10 := by
  unfold calculateConfidence
  rw [if_neg (by decide), if_pos rfl, if_pos h]

theorem calculateConfidence_ai_mid (d : ℚ) (h1 : 1 ≤ d) (h2 : d < 3) :
    calculateConfidence "ai_generated" d = 3/5 := by
  unfold calculateConfidence
  rw [if_neg (by decide), if_pos rfl, if_neg (not_lt.mpr h1), if_pos h2]

theorem calculateConfidence_ai_ge3 (d : ℚ) (h : 3 ≤ d) :
    calculateConfidence "ai_generated" d = 4/5 := by
  unfold calculateConfidence
  rw [if_neg (by decide), if_pos rfl, if_neg (not_lt.mpr (le_trans (by norm_num) h)),
    if_neg (not_lt.mpr h)]

theorem calculateConfidence_other (t : String) (d : ℚ) (h1 : t ≠ "manual")
    (h2 : t ≠ "ai_generated") : calculateConfidence t d = 1/2 := by
  unfold calculateConfidence
  rw [if_neg h1, if_neg h2]

/-- C3: the confidence score is a deterministic function of mapping_type
and duration: manual always 1.0; ai_generated 0.3 below 1 s, 0.6 from 1 s
up to 3 s, 0.8 from 3 s; every other type 0.5. -/
theorem C3_confidence_determinism (d : ℚ) :
    calculateConfidence "manual" d = 1 ∧
    (d < 1 → calculateConfidence "ai_generated" d = 3/10) ∧
    (1 ≤ d → d < 3 → calculateConfidence "ai_generated" d = 3/5) ∧
    (3 ≤ d → calculateConfidence "ai_generated" d = 4/5) ∧
    (∀ t : String, t ≠ "manual" → t ≠ "ai_generated" →
      calculateConfidence t d = 1/2) := by
  exact ⟨calculateConfidence_manual d, calculateConfidence_ai_lt1 d,
    calculateConfidence_ai_mid d, calculateConfidence_ai_ge3 d,
    fun t h1 h2 => calculateConfidence_other t d h1 h2⟩

/-- Witness for C3 at the spec's sample durations (0.5 s, 2 s, 10 s) and a
non-manual, non-AI type. -/
theorem C3_confidence_determinism_witness :
    calculateConfidence "manual" 2 = 1 ∧
    calculateConfidence "ai_generated" (1/2) = 3/10 ∧
    calculateConfidence "ai_generated" 2 = 3/5 ∧
    calculateConfidence "ai_generated" 10 = 4/5 ∧
    calculateConfidence "auto" 2 = 1/2 :=
  ⟨(C3_confidence_determinism 2).1,
    (C3_confidence_determinism (1/2)).2.1 (by norm_num),
    (C3_confidence_determinism 2).2.2.1 (by norm_num) (by norm_num),
    (C3_confidence_determinism 10).2.2.2.1 (by norm_num),
    (C3_confidence_determinism 2).2.2.2.2 "auto" (by decide) (by decide)⟩

/-- C5 is a code bug: the create endpoint produces neither of the claimed
outcomes, evaluated here at the spec's sample calls. (start 5, end 3) is
answered with HTTP 500, not the claimed ValidationError/400 — the
handler's own `HTTPException(400)` is swallowed by its generic
`except Exception` because this endpoint lacks the `except HTTPException`
passthrough its update/delete siblings have — though indeed no mapping is
created. (start 3, end 5) does NOT succeed: the mapping is persisted (it
is the single active row for the sentence, last conjunct), but
`SentenceMappingResponse` requires a `version` field absent from the
service's `mapping_dict` (first conjunct), so pydantic's
`ValidationError` is caught as a `ValueError` and the response is
HTTP 400. The repo's own test `test_create_sentence_mapping` asserts a
success status (201) for exactly such a valid-range call. -/
theorem C5_create_endpoint_error_paths :
    buildSentenceMappingResponse mappingDictKeys = .error () ∧
    apiCreateSentenceMapping DBState.init 0 5 3 7 "manual" none
      = (.httpError 500, DBState.init) ∧
    apiCreateSentenceMapping DBState.init 0 3 5 7 "manual" none
      = (.httpError 400, (createSentenceMapping DBState.init 0 3 5 7 "manual" none).2) ∧
    activeFor (apiCreateSentenceMapping DBState.init 0 3 5 7 "manual" none).2 0
      = [(createSentenceMapping DBState.init 0 3 5 7 "manual" none).1] := by
  refine ⟨rfl, rfl, rfl, by decide⟩

/-- C6 is a code bug: the service's delete calls `_record_mapping_edit`
without the required `new_start_time` / `new_end_time` arguments, so
deleting a sentence that HAS an active mapping raises `TypeError`
(HTTP 500 at the endpoint) after deactivating the row and before writing
any audit row — the repo's own integration test
(`test_delete_sentence_mapping`) expects HTTP 200 with `success: true`.
Deleting with no active mapping does return HTTP 404 as claimed. -/
theorem C6_delete_raises_typeerror :
    ((deleteSentenceMapping (createSentenceMapping DBState.init 0 1 2 7 "manual" none).2
        0 9).1 = .error .typeError ∧
      (apiDeleteSentenceMapping (createSentenceMapping DBState.init 0 1 2 7 "manual" none).2
        0 9).1 = .httpError 500 ∧
      activeFor (apiDeleteSentenceMapping
        (createSentenceMapping DBState.init 0 1 2 7 "manual" none).2 0 9).2 0 = [] ∧
      (apiDeleteSentenceMapping
          (createSentenceMapping DBState.init 0 1 2 7 "manual" none).2 0 9).2.edits
        = (createSentenceMapping DBState.init 0 1 2 7 "manual" none).2.edits) ∧
    (apiDeleteSentenceMapping DBState.init 0 9).1 = .httpError 404 := by
  exact ⟨⟨rfl, rfl, by decide, by decide⟩, rfl⟩

/-! ### Auto-align -/

theorem autoAlignGo_cons (uid : Nat) (tps : ℚ) (s : Nat) (rest : List Nat) (i0 : Nat)
    (st : DBState) :
    autoAlignGo uid tps (s :: rest) i0 st
      = ((createSentenceMapping st s ((i0 : ℚ) * tps) (((i0 : ℚ) + 1) * tps)
            uid "ai_generated" (some autoAlignMeta)).1
          :: (autoAlignGo uid tps rest (i0 + 1)
            (createSentenceMapping st s ((i0 : ℚ) * tps) (((i0 : ℚ) + 1) * tps)
              uid "ai_generated" (some autoAlignMeta)).2).1,
         (autoAlignGo uid tps rest (i0 + 1)
            (createSentenceMapping st s ((i0 : ℚ) * tps) (((i0 : ℚ) + 1) * tps)
              uid "ai_generated" (some autoAlignMeta)).2).2) := rfl

theorem autoAlignGo_spec (uid : Nat) (tps : ℚ) (l : List Nat) :
    ∀ (i0 : Nat) (st : DBState),
      (autoAlignGo uid tps l i0 st).1.length = l.length ∧
      ∀ j (hj : j < (autoAlignGo uid tps l i0 st).1.length),
        ((autoAlignGo uid tps l i0 st).1.get ⟨j, hj⟩).start_time
            = ((i0 + j : Nat) : ℚ) * tps ∧
        ((autoAlignGo uid tps l i0 st).1.get ⟨j, hj⟩).end_time
            = (((i0 + j : Nat) : ℚ) + 1) * tps ∧
        ((autoAlignGo uid tps l i0 st).1.get ⟨j, hj⟩).mapping_type = "ai_generated" ∧
        ((autoAlignGo uid tps l i0 st).1.get ⟨j, hj⟩).metadata = autoAlignMeta ∧
        ((autoAlignGo uid tps l i0 st).1.get ⟨j, hj⟩).confidence_score
            = calculateConfidence "ai_generated" tps := by
  induction l with
  | nil =>
    intro i0 st
    refine ⟨rfl, ?_⟩
    intro j hj
    exact absurd hj (by simp [autoAlignGo])
  | cons s rest ih =>
    intro i0 st
    rw [autoAlignGo_cons]
    constructor
    · simp [(ih (i0 + 1) (createSentenceMapping st s ((i0 : ℚ) * tps)
        (((i0 : ℚ) + 1) * tps) uid "ai_generated" (some autoAlignMeta)).2).1]
    · intro j hj
      cases j with
      | zero =>
        rw [createSentenceMapping_fst]
        refine ⟨?_, ?_, rfl, rfl, ?_⟩
        · show (i0 : ℚ) * tps = ((i0 + 0 : Nat) : ℚ) * tps
          norm_num
        · show ((i0 : ℚ) + 1) * tps = (((i0 + 0 : Nat) : ℚ) + 1) * tps
          norm_num
        · show calculateConfidence "ai_generated" (((i0 : ℚ) + 1) * tps - (i0 : ℚ) * tps)
            = calculateConfidence "ai_generated" tps
          have hdur : (((i0 : ℚ) + 1) * tps - (i0 : ℚ) * tps) = tps := by ring
          rw [hdur]
      | succ k =>
        have hj2 : k < (autoAlignGo uid tps rest (i0 + 1)
            (createSentenceMapping st s ((i0 : ℚ) * tps) (((i0 : ℚ) + 1) * tps)
              uid "ai_generated" (some autoAlignMeta)).2).1.length := by
          simpa using hj
        have h := (ih (i0 + 1) (createSentenceMapping st s ((i0 : ℚ) * tps)
          (((i0 : ℚ) + 1) * tps) uid "ai_generated" (some autoAlignMeta)).2).2 k hj2
        have hidx : (i0 + 1) + k = i0 + (k + 1) := by omega
        rw [hidx] at h
        exact h

/-- C4: on a script with N >= 1 sentences (in order) and audio duration D,
auto-align returns exactly N mappings; mapping i spans
[i * D/N, (i+1) * D/N), has type ai_generated, carries the auto_aligned
metadata flag, and when D/N >= 3 its confidence score is 0.8. -/
theorem C4_auto_align (st : DBState) (sentences : List Nat) (d : ℚ) (uid : Nat)
    (h : 1 ≤ sentences.length) :
    (autoAlignScript st sentences d uid).1.length = sentences.length ∧
    ∀ j (hj : j < (autoAlignScript st sentences d uid).1.length),
      ((autoAlignScript st sentences d uid).1.get ⟨j, hj⟩).start_time
          = (j : ℚ) * (d / (sentences.length : ℚ)) ∧
      ((autoAlignScript st sentences d uid).1.get ⟨j, hj⟩).end_time
          = ((j : ℚ) + 1) * (d / (sentences.length : ℚ)) ∧
      ((autoAlignScript st sentences d uid).1.get ⟨j, hj⟩).mapping_type
          = "ai_generated" ∧
      ("auto_aligned", MetaVal.b true) ∈
          ((autoAlignScript st sentences d uid).1.get ⟨j, hj⟩).metadata ∧
      (3 ≤ d / (sentences.length : ℚ) →
        ((autoAlignScript st sentences d uid).1.get ⟨j, hj⟩).confidence_score = 4/5) := by
  cases sentences with
  | nil => exact absurd h (by simp)
  | cons s0 rest =>
    have hscript : autoAlignScript st (s0 :: rest) d uid
        = autoAlignGo uid (d / ((s0 :: rest).length : ℚ)) (s0 :: rest) 0 st := rfl
    rw [hscript]
    obtain ⟨hlen, hspec⟩ := autoAlignGo_spec uid (d / ((s0 :: rest).length : ℚ))
      (s0 :: rest) 0 st
    refine ⟨hlen, ?_⟩
    intro j hj
    obtain ⟨h1, h2, h3, h4, h5⟩ := hspec j hj
    refine ⟨by simpa using h1, by simpa using h2, h3, by rw [h4]; simp [autoAlignMeta], ?_⟩
    intro hd
    rw [h5, calculateConfidence_ai_ge3 _ hd]

/-- Witness for C4 at the spec's auto-align scenario: 5 sentences, audio
duration 25 s; mapping 2 spans [10, 15), has type ai_generated, the
auto_aligned flag, and confidence 0.8. -/
theorem C4_auto_align_witness :
    (autoAlignScript DBState.init [0, 1, 2, 3, 4] 25 7).1.length = 5 ∧
    ∃ hj : 2 < (autoAlignScript DBState.init [0, 1, 2, 3, 4] 25 7).1.length,
      ((autoAlignScript DBState.init [0, 1, 2, 3, 4] 25 7).1.get ⟨2, hj⟩).start_time = 10 ∧
      ((autoAlignScript DBState.init [0, 1, 2, 3, 4] 25 7).1.get ⟨2, hj⟩).end_time = 15 ∧
      ((autoAlignScript DBState.init [0, 1, 2, 3, 4] 25 7).1.get ⟨2, hj⟩).mapping_type
          = "ai_generated" ∧
      ("auto_aligned", MetaVal.b true) ∈
          ((autoAlignScript DBState.init [0, 1, 2, 3, 4] 25 7).1.get ⟨2, hj⟩).metadata ∧
      ((autoAlignScript DBState.init [0, 1, 2, 3, 4] 25 7).1.get ⟨2, hj⟩).confidence_score
          = 4/5 := by
  obtain ⟨hlen, hspec⟩ := C4_auto_align DBState.init [0, 1, 2, 3, 4] 25 7 (by decide)
  have hj : 2 < (autoAlignScript DBState.init [0, 1, 2, 3, 4] 25 7).1.length := by
    rw [hlen]
    decide
  obtain ⟨h1, h2, h3, h4, h5⟩ := hspec 2 hj
  refine ⟨by simpa using hlen, hj, ?_, ?_, h3, h4, h5 (by norm_num)⟩
  · rw [h1]
    norm_num
  · rw [h2]
    norm_num

/-! ### Connection Manager (backend/app/websocket/connection_manager.py)

The transport is abstracted to whether `websocket.send_text` succeeds for a
connection; messages are opaque strings. The user index and timestamps are
not modelled (no claim mentions them). -/

/-- One live connection (`Connection`, connection_manager.py lines 18-60). -/
structure Conn where
  connection_id : String
  user_id : Option Nat
  transportOk : Bool
deriving DecidableEq, Repr

/-- `ConnectionManager` state (lines 63-78): the connection registry and the
room-membership map (`rooms: room_id -> set of connection_ids`). -/
structure CMState where
  connections : List Conn
  rooms : List (String × List String)
deriving DecidableEq, Repr

/-- Dictionary lookup in the connection registry
(`self.connections.get(connection_id)`; keys are unique in a dict, so
first-match lookup). -/
def lookupConn : List Conn → String → Option Conn
  | [], _ => none
  | c :: rest, cid => if c.connection_id == cid then some c else lookupConn rest cid

/-- Dictionary lookup in the room map (`self.rooms.get(room_id)`). -/
def lookupRoom : List (String × List String) → String → Option (List String)
  | [], _ => none
  | r :: rest, roomId => if r.1 == roomId then some r.2 else lookupRoom rest roomId

/-- `self.connections.get(connection_id)`. -/
def findConn (st : CMState) (cid : String) : Option Conn :=
  lookupConn st.connections cid

/-- `self.rooms.get(room_id)`, a missing room read as the empty set. -/
def roomMembers (st : CMState) (roomId : String) : List String :=
  (lookupRoom st.rooms roomId).getD []

/-- Whether a send to `cid` would succeed right now: the connection is
registered and its transport works. -/
def lookupOk (st : CMState) (cid : String) : Bool :=
  ((findConn st cid).map (fun c => c.transportOk)).getD false

/-- `ConnectionManager.disconnect` (lines 118-147): leave every room
(dropping rooms that become empty, lines 211-214) and remove the
connection. The `session_leave` notification broadcast fired inside
`_leave_room_internal` sends frames of a different type and is not part of
any delivery log tracked here. -/
def disconnect (st : CMState) (cid : String) : CMState :=
  ⟨st.connections.filter (fun c => c.connection_id != cid),
    (st.rooms.map (fun r => (r.1, r.2.filter (fun x => x != cid)))).filter
      (fun r => !r.2.isEmpty)⟩

/-- `ConnectionManager.send_to_connection` (lines 218-237): unknown id →
`False`; transport failure → the exception from `send_message` is caught,
the connection is disconnected and `False` returned; otherwise the message
is delivered and `True` returned. The method catches every exception, so
it never raises past the Connection Manager boundary — a total function. -/
def sendToConnection (st : CMState) (cid : String) (msg : String) :
    Bool × CMState × List (String × String) :=
  match findConn st cid with
  | none => (false, st, [])
  | some c =>
    if c.transportOk then (true, st, [(cid, msg)])
    else (false, disconnect st cid, [])

/-- The fan-out loop of `broadcast_to_room` (lines 271-279): iterate over a
fixed copy of the member set, skip excluded ids, send to each remaining
member and count the `True` results
(`asyncio.gather(..., return_exceptions=True)`; the individual sends never
raise). The send result for the member at hand is a pure function of the
state, so it is written out by projection instead of a `let`. -/
def broadcastGo (msg : String) (excl : List String) :
    List String → CMState → Nat × CMState × List (String × String)
  | [], st => (0, st, [])
  | cid :: rest, st =>
    if cid ∈ excl then broadcastGo msg excl rest st
    else
      ((if (sendToConnection st cid msg).1 then 1 else 0)
          + (broadcastGo msg excl rest (sendToConnection st cid msg).2.1).1,
        (broadcastGo msg excl rest (sendToConnection st cid msg).2.1).2.1,
        (sendToConnection st cid msg).2.2
          ++ (broadcastGo msg excl rest (sendToConnection st cid msg).2.1).2.2)

/-- `ConnectionManager.broadcast_to_room` (lines 256-282): empty or missing
room → 0; otherwise fan out over the member copy and return the count of
successful deliveries. -/
def broadcastToRoom (st : CMState) (roomId : String) (msg : String)
    (excl : List String) : Nat × CMState × List (String × String) :=
  if (roomMembers st roomId).isEmpty then (0, st, [])
  else broadcastGo msg excl (roomMembers st roomId) st

theorem lookupConn_filter_ne (l : List Conn) (cid x : String) (h : x ≠ cid) :
    lookupConn (l.filter (fun c => c.connection_id != cid)) x = lookupConn l x := by
  induction l with
  | nil => rfl
  | cons c rest ih =>
    rw [List.filter_cons]
    by_cases h1 : (c.connection_id == cid) = true
    · have hb : (c.connection_id != cid) = false := by
        show (!(c.connection_id == cid)) = false
        rw [h1]
        rfl
      have hcx : (c.connection_id == x) = false := by
        have hc : c.connection_id = cid := by simpa using h1
        rw [hc]
        simpa using fun hh => h hh.symm
      rw [hb, if_neg (by simp)]
      rw [show lookupConn (c :: rest) x = lookupConn rest x from by
        simp [lookupConn, hcx]]
      exact ih
    · have hb : (c.connection_id != cid) = true := by
        show (!(c.connection_id == cid)) = true
        simp [h1]
      rw [if_pos hb]
      by_cases h2 : (c.connection_id == x) = true
      · simp [lookupConn, h2]
      · rw [show lookupConn (c :: rest) x = lookupConn rest x from by
          simp [lookupConn, h2]]
        rw [show lookupConn (c :: List.filter (fun c => c.connection_id != cid) rest) x
            = lookupConn (List.filter (fun c => c.connection_id != cid) rest) x from by
          simp [lookupConn, h2]]
        exact ih

theorem lookupConn_filter_self (l : List Conn) (cid : String) :
    lookupConn (l.filter (fun c => c.connection_id != cid)) cid = none := by
  induction l with
  | nil => rfl
  | cons c rest ih =>
    rw [List.filter_cons]
    by_cases h1 : (c.connection_id == cid) = true
    · have hb : (c.connection_id != cid) = false := by
        show (!(c.connection_id == cid)) = false
        rw [h1]
        rfl
      rw [hb, if_neg (by simp)]
      exact ih
    · have hb : (c.connection_id != cid) = true := by
        show (!(c.connection_id == cid)) = true
        simp [h1]
      rw [if_pos hb]
      rw [show lookupConn (c :: List.filter (fun c => c.connection_id != cid) rest) cid
          = lookupConn (List.filter (fun c => c.connection_id != cid) rest) cid from by
        simp [lookupConn, h1]]
      exact ih

theorem lookupOk_disconnect (st : CMState) (cid x : String) (h : lookupOk st cid = false) :
    lookupOk (disconnect st cid) x = lookupOk st x := by
  by_cases hx : x = cid
  · subst hx
    show ((lookupConn (st.connections.filter (fun c => c.connection_id != x)) x).map
        (fun c => c.transportOk)).getD false = lookupOk st x
    rw [lookupConn_filter_self]
    exact h.symm
  · show ((lookupConn (st.connections.filter (fun c => c.connection_id != cid)) x).map
        (fun c => c.transportOk)).getD false = lookupOk st x
    rw [lookupConn_filter_ne _ _ _ hx]
    rfl

theorem sendToConnection_of_ok (st : CMState) (cid : String) (msg : String)
    (h : lookupOk st cid = true) :
    sendToConnection st cid msg = (true, st, [(cid, msg)]) := by
  cases hf : findConn st cid with
  | none =>
    unfold lookupOk at h
    rw [hf] at h
    exact absurd h (by simp)
  | some c =>
    have hc : c.transportOk = true := by
      unfold lookupOk at h
      rw [hf] at h
      simpa using h
    unfold sendToConnection
    rw [hf]
    show (if c.transportOk = true then (true, st, [(cid, msg)])
        else (false, disconnect st cid, [])) = (true, st, [(cid, msg)])
    rw [if_pos hc]

theorem sendToConnection_of_notOk (st : CMState) (cid : String) (msg : String)
    (h : lookupOk st cid = false) :
    (sendToConnection st cid msg).1 = false ∧ (sendToConnection st cid msg).2.2 = [] ∧
      ∀ x, lookupOk (sendToConnection st cid msg).2.1 x = lookupOk st x := by
  cases hf : findConn st cid with
  | none =>
    have hred : sendToConnection st cid msg = (false, st, []) := by
      unfold sendToConnection
      rw [hf]
    rw [hred]
    exact ⟨rfl, rfl, fun x => rfl⟩
  | some c =>
    have hc : c.transportOk = false := by
      unfold lookupOk at h
      rw [hf] at h
      simpa using h
    have hred : sendToConnection st cid msg = (false, disconnect st cid, []) := by
      unfold sendToConnection
      rw [hf]
      show (if c.transportOk = true then (true, st, [(cid, msg)])
          else (false, disconnect st cid, [])) = (false, disconnect st cid, [])
      rw [if_neg (by simp [hc])]
    rw [hred]
    refine ⟨rfl, rfl, fun x => ?_⟩
    show lookupOk (disconnect st cid) x = lookupOk st x
    apply lookupOk_disconnect
    unfold lookupOk
    rw [hf]
    simpa using hc

theorem broadcastGo_cons_skip (msg : String) (excl : List String) (cid : String)
    (rest : List String) (st : CMState) (hex : cid ∈ excl) :
    broadcastGo msg excl (cid :: rest) st = broadcastGo msg excl rest st := by
  simp [broadcastGo, hex]

theorem broadcastGo_cons_ok (msg : String) (excl : List String) (cid : String)
    (rest : List String) (st : CMState) (hex : cid ∉ excl)
    (hok : lookupOk st cid = true) :
    broadcastGo msg excl (cid :: rest) st
      = (1 + (broadcastGo msg excl rest st).1, (broadcastGo msg excl rest st).2.1,
         (cid, msg) :: (broadcastGo msg excl rest st).2.2) := by
  simp [broadcastGo, hex, sendToConnection_of_ok st cid msg hok]

theorem broadcastGo_cons_notOk (msg : String) (excl : List String) (cid : String)
    (rest : List String) (st : CMState) (hex : cid ∉ excl)
    (hok : lookupOk st cid = false) :
    broadcastGo msg excl (cid :: rest) st
      = broadcastGo msg excl rest (sendToConnection st cid msg).2.1 := by
  obtain ⟨hf, hd, _⟩ := sendToConnection_of_notOk st cid msg hok
  simp [broadcastGo, hex, hf, hd]

theorem broadcastGo_spec (msg : String) (excl : List String) (members : List String) :
    ∀ st : CMState,
      (broadcastGo msg excl members st).2.2
        = (members.filter (fun x => decide (x ∉ excl) && lookupOk st x)).map
            (fun x => (x, msg)) ∧
      (broadcastGo msg excl members st).1
        = (members.filter (fun x => decide (x ∉ excl) && lookupOk st x)).length := by
  induction members with
  | nil =>
    intro st
    exact ⟨rfl, rfl⟩
  | cons cid rest ih =>
    intro st
    rw [List.filter_cons]
    by_cases hex : cid ∈ excl
    · rw [broadcastGo_cons_skip msg excl cid rest st hex, if_neg (by simp [hex])]
      exact ih st
    · cases hok : lookupOk st cid with
      | true =>
        rw [broadcastGo_cons_ok msg excl cid rest st hex hok,
          if_pos (by simp [hex, hok])]
        obtain ⟨h1, h2⟩ := ih st
        constructor
        · show (cid, msg) :: (broadcastGo msg excl rest st).2.2 = _
          rw [List.map_cons, h1]
        · show 1 + (broadcastGo msg excl rest st).1 = _
          rw [List.length_cons, h2]
          omega
      | false =>
        rw [broadcastGo_cons_notOk msg excl cid rest st hex hok,
          if_neg (by simp [hok])]
        obtain ⟨hfb, hdl, hpt⟩ := sendToConnection_of_notOk st cid msg hok
        obtain ⟨h1, h2⟩ := ih (sendToConnection st cid msg).2.1
        have hfilter : rest.filter
              (fun x => decide (x ∉ excl) && lookupOk (sendToConnection st cid msg).2.1 x)
            = rest.filter (fun x => decide (x ∉ excl) && lookupOk st x) := by
          apply List.filter_congr
          intro x _
          rw [hpt x]
        rw [hfilter] at h1 h2
        exact ⟨h1, h2⟩

/-- C7: `broadcast_to_room` attempts the message to every member of the
room outside the exclude set and delivers to exactly those whose transport
works — one member's broken transport does not affect the others'
deliveries; it never raises past the Connection Manager boundary (each
send swallows its own exception, and the whole operation is a total
function here) and returns the number of successful deliveries. The final
conjuncts are the claim's example: a 3-member room with one broken
transport delivers to the other 2 and reports a count of 2. -/
theorem C7_broadcast_isolation (st : CMState) (roomId : String) (msg : String)
    (excl : List String) :
    ((broadcastToRoom st roomId msg excl).2.2
        = ((roomMembers st roomId).filter
            (fun x => decide (x ∉ excl) && lookupOk st x)).map (fun x => (x, msg)) ∧
      (broadcastToRoom st roomId msg excl).1
        = ((roomMembers st roomId).filter
            (fun x => decide (x ∉ excl) && lookupOk st x)).length) ∧
    (broadcastToRoom
        ⟨[⟨"a", none, true⟩, ⟨"b", none, true⟩, ⟨"c", none, false⟩],
          [("r", ["a", "b", "c"])]⟩ "r" "m" []).1 = 2 ∧
    (broadcastToRoom
        ⟨[⟨"a", none, true⟩, ⟨"b", none, true⟩, ⟨"c", none, false⟩],
          [("r", ["a", "b", "c"])]⟩ "r" "m" []).2.2 = [("a", "m"), ("b", "m")] := by
  refine ⟨?_, by decide, by decide⟩
  unfold broadcastToRoom
  by_cases hemp : (roomMembers st roomId).isEmpty = true
  · rw [if_pos hemp]
    have hnil : roomMembers st roomId = [] := by
      cases hr : roomMembers st roomId with
      | nil => rfl
      | cons a l =>
        rw [hr] at hemp
        exact absurd hemp (by simp)
    rw [hnil]
    exact ⟨rfl, rfl⟩
  · rw [if_neg hemp]
    exact broadcastGo_spec msg excl (roomMembers st roomId) st

/-! ### Sync sessions and the sync WebSocket coordinator
(backend/app/services/sync/sync_mapping_service.py lines 299-354,
backend/app/websocket/sync_websocket.py) -/

/-- A `sync_sessions` row (uuid, session_token, client_info and timestamps
omitted: no claim mentions them). -/
structure SyncSession where
  script_id : String
  user_id : Option Nat
  connection_id : String
  room_id : String
  current_position : ℚ
  is_playing : Bool
  is_active : Bool
deriving DecidableEq, Repr

/-- The room id stored by `create_sync_session`
(sync_mapping_service.py line 314):
`f"sync_{str(script_id).replace('-', '')}"`. Replacing the one-character
pattern `-` by the empty string removes every hyphen. -/
def sessionRoomId (scriptId : String) : String :=
  "sync_" ++ String.mk (scriptId.data.filter (fun c => c ≠ Char.ofNat 45))

/-- `SyncMappingService.create_sync_session` (lines 299-354): build the
room id, deactivate prior active sessions for (connection_id, script_id)
(lines 566-578), insert the new active session row. -/
def createSyncSession (sessions : List SyncSession) (scriptId : String)
    (connId : String) (uid : Option Nat) (pos : ℚ) (playing : Bool) :
    SyncSession × List SyncSession :=
  let deact := sessions.map (fun ss =>
    if ss.connection_id == connId && ss.script_id == scriptId && ss.is_active then
      { ss with is_active := false } else ss)
  let s : SyncSession :=
    ⟨scriptId, uid, connId, sessionRoomId scriptId, pos, playing, true⟩
  (s, deact ++ [s])

/-- The room a WebSocket connection for a script joins — and the room the
service-layer broadcasts (`broadcast_mapping_update`,
`broadcast_mapping_deletion`, sync_websocket.py lines 185-237) target:
`f"script:{script_id}"` (lines 55, 193, 220), hyphens kept. -/
def wsRoomId (scriptId : String) : String := "script:" ++ scriptId

/-- `ConnectionManager.join_room` (connection_manager.py lines 149-180):
record membership in both directions (only the room map matters here; the
join notification broadcast carries a `session_join` frame and is not part
of any claim). -/
def joinRoom (st : CMState) (cid : String) (roomId : String) : CMState :=
  match lookupRoom st.rooms roomId with
  | none => ⟨st.connections, st.rooms ++ [(roomId, [cid])]⟩
  | some _ => ⟨st.connections,
      st.rooms.map (fun r => if r.1 == roomId then (r.1, r.2 ++ [cid]) else r)⟩

/-- `SyncWebSocketManager.connect_to_sync_room` (sync_websocket.py lines
30-75): register the connection, join room `f"script:{script_id}"`, return
(connection_id, room_id). (The subsequent `connection_ack` send accesses
the missing `WebSocketMessageType.CONNECTION_ACK` enum member and raises,
but the join has already happened at that point.) -/
def connectToSyncRoom (st : CMState) (scriptId : String) (connId : String)
    (uid : Option Nat) (transportOk : Bool) : String × CMState :=
  (wsRoomId scriptId,
    joinRoom ⟨st.connections ++ [⟨connId, uid, transportOk⟩], st.rooms⟩ connId
      (wsRoomId scriptId))

theorem lookupRoom_append_new (rooms : List (String × List String)) (roomId : String)
    (l : List String) (hf : lookupRoom rooms roomId = none) :
    lookupRoom (rooms ++ [(roomId, l)]) roomId = some l := by
  induction rooms with
  | nil => simp [lookupRoom]
  | cons r rest ih =>
    rw [show lookupRoom ((r :: rest) ++ [(roomId, l)]) roomId
        = if r.1 == roomId then some r.2
          else lookupRoom (rest ++ [(roomId, l)]) roomId from rfl]
    rw [show lookupRoom (r :: rest) roomId
        = if r.1 == roomId then some r.2 else lookupRoom rest roomId from rfl] at hf
    by_cases h1 : (r.1 == roomId) = true
    · rw [if_pos h1] at hf
      exact absurd hf (by simp)
    · rw [if_neg h1] at hf
      rw [if_neg h1]
      exact ih hf

theorem lookupRoom_map_extend (rooms : List (String × List String))
    (roomId cid : String) (l0 : List String) (h0 : lookupRoom rooms roomId = some l0) :
    lookupRoom (rooms.map
        (fun r => if r.1 == roomId then (r.1, r.2 ++ [cid]) else r)) roomId
      = some (l0 ++ [cid]) := by
  induction rooms with
  | nil => exact absurd h0 (by simp [lookupRoom])
  | cons r rest ih =>
    by_cases h1 : (r.1 == roomId) = true
    · rw [show lookupRoom (r :: rest) roomId
          = if r.1 == roomId then some r.2 else lookupRoom rest roomId from rfl,
        if_pos h1] at h0
      have hl0 : r.2 = l0 := by simpa using h0
      rw [List.map_cons, if_pos h1]
      rw [show lookupRoom ((r.1, r.2 ++ [cid]) :: rest.map
          (fun r => if r.1 == roomId then (r.1, r.2 ++ [cid]) else r)) roomId
          = if r.1 == roomId then some (r.2 ++ [cid])
            else lookupRoom (rest.map
              (fun r => if r.1 == roomId then (r.1, r.2 ++ [cid]) else r)) roomId
          from rfl, if_pos h1, hl0]
    · rw [show lookupRoom (r :: rest) roomId
          = if r.1 == roomId then some r.2 else lookupRoom rest roomId from rfl,
        if_neg h1] at h0
      rw [List.map_cons, if_neg h1]
      rw [show lookupRoom (r :: rest.map
          (fun r => if r.1 == roomId then (r.1, r.2 ++ [cid]) else r)) roomId
          = if r.1 == roomId then some r.2
            else lookupRoom (rest.map
              (fun r => if r.1 == roomId then (r.1, r.2 ++ [cid]) else r)) roomId
          from rfl, if_neg h1]
      exact ih h0

theorem mem_roomMembers_joinRoom (st : CMState) (cid roomId : String) :
    cid ∈ roomMembers (joinRoom st cid roomId) roomId := by
  unfold joinRoom
  cases hf : lookupRoom st.rooms roomId with
  | none =>
    show cid ∈ (lookupRoom (st.rooms ++ [(roomId, [cid])]) roomId).getD []
    rw [lookupRoom_append_new st.rooms roomId [cid] hf]
    simp
  | some l =>
    show cid ∈ (lookupRoom (st.rooms.map
        (fun r => if r.1 == roomId then (r.1, r.2 ++ [cid]) else r)) roomId).getD []
    rw [lookupRoom_map_extend st.rooms roomId cid l hf]
    simp

/-- C8 counterexample: for script id "ab-cd" the SyncSession row stores
room_id "sync_abcd", but the room the WebSocket connection for that script
joins is "script:ab-cd" — the claim that both equal
"sync_" + script_id-without-hyphens is false. -/
theorem C8_counterexample :
    (createSyncSession [] "ab-cd" "c1" none 0 false).1.room_id = "sync_abcd" ∧
    (connectToSyncRoom ⟨[], []⟩ "ab-cd" "c1" none true).1 = "script:ab-cd" ∧
    (connectToSyncRoom ⟨[], []⟩ "ab-cd" "c1" none true).1
      ≠ "sync_" ++ String.mk ("ab-cd".data.filter (fun c => c ≠ Char.ofNat 45)) := by
  refine ⟨by decide, rfl, by decide⟩

/-- C8 amended: the engine uses TWO deterministic room identifiers, not
one: a newly created SyncSession stores room_id = "sync_" + script_id with
hyphens removed, while the room a WebSocket connection for that script
joins — which is also the room the service-layer mapping broadcasts
target (`wsRoomId`) — is "script:" + script_id with hyphens kept. -/
theorem C8_amended_two_room_ids (scriptId connId : String)
    (sessions : List SyncSession) (st : CMState) (uid : Option Nat) (pos : ℚ)
    (playing : Bool) (tOk : Bool) :
    (createSyncSession sessions scriptId connId uid pos playing).1.room_id
      = "sync_" ++ String.mk (scriptId.data.filter (fun c => c ≠ Char.ofNat 45)) ∧
    (createSyncSession sessions scriptId connId uid pos playing).1
      ∈ (createSyncSession sessions scriptId connId uid pos playing).2 ∧
    (connectToSyncRoom st scriptId connId uid tOk).1 = "script:" ++ scriptId ∧
    connId ∈ roomMembers (connectToSyncRoom st scriptId connId uid tOk).2
      ("script:" ++ scriptId) := by
  refine ⟨rfl, by simp [createSyncSession], rfl, ?_⟩
  exact mem_roomMembers_joinRoom
    ⟨st.connections ++ [⟨connId, uid, tOk⟩], st.rooms⟩ connId ("script:" ++ scriptId)

/-- `SyncWebSocketManager.handle_sync_message` (sync_websocket.py lines
77-115). The dispatch chain compares the received type against
`WebSocketMessageType.POSITION_UPDATE.value` (a real member), then
`.MAPPING_EDIT.value` and `.PING.value` — but `MAPPING_EDIT`, `PING` (and
`POSITION_SYNC`, `PONG`, `CONNECTION_ACK`) are NOT members of the
`WebSocketMessageType` enum in app/models/sync.py lines 235-243, so the
access raises `AttributeError`, swallowed by the method's except block
(lines 114-115). For "position_update" the same happens on
`POSITION_SYNC` inside `_handle_position_update` (lines 117-148, except at
147-148). Net effect of every inbound frame: no reply, no state change;
the explicitly coded unknown-type branch (lines 111-112) also only logs a
warning and sends nothing. -/
def handleSyncMessage (st : CMState) (cid : String) (msgType : String) :
    CMState × List (String × String) :=
  match findConn st cid with
  | none => (st, [])
  | some _ =>
    if msgType = "position_update" then (st, [])
    else (st, [])

/-- One iteration of the receive loop of `websocket_sync_endpoint`
(sync_websocket.py lines 313-349) on one received text frame, `none`
standing for a non-JSON payload: malformed JSON is answered with an
`error` frame (lines 335-341); a parsed frame goes to
`handle_sync_message`. The final Bool records whether the loop breaks —
it never does on a received frame (only `WebSocketDisconnect` breaks),
so the connection is not removed from the manager. -/
def wsLoopStep (st : CMState) (cid : String) (frame : Option String) :
    CMState × List (String × String) × Bool :=
  match frame with
  | none => (st, [(cid, "error")], false)
  | some msgType =>
    ((handleSyncMessage st cid msgType).1, (handleSyncMessage st cid msgType).2, false)

/-- C9 counterexample: a joined connection receives a well-formed frame of
the unrecognized type "bogus"; the coordinator sends NOTHING back (the
claimed `error`-frame reply does not happen), while the connection does
remain open and registered. -/
theorem C9_counterexample :
    (wsLoopStep ⟨[⟨"c1", none, true⟩], [("script:s1", ["c1"])]⟩ "c1"
        (some "bogus")).2.1 = [] ∧
    (wsLoopStep ⟨[⟨"c1", none, true⟩], [("script:s1", ["c1"])]⟩ "c1"
        (some "bogus")).2.2 = false ∧
    findConn (wsLoopStep ⟨[⟨"c1", none, true⟩], [("script:s1", ["c1"])]⟩ "c1"
        (some "bogus")).1 "c1" = some ⟨"c1", none, true⟩ := by
  refine ⟨rfl, rfl, by decide⟩

/-- C9 amended: for every well-formed frame received for a registered
connection whose type is none of position_update, mapping_edit, ping, the
coordinator sends no reply at all (the unknown-type branch only logs a
warning; the dispatch in fact raises an AttributeError on a missing enum
member, swallowed inside the handler), the manager state is unchanged —
so the connection stays registered — and the receive loop continues. -/
theorem C9_amended_unknown_type_silent (st : CMState) (cid : String) (t : String)
    (h1 : t ≠ "position_update") (h2 : t ≠ "mapping_edit") (h3 : t ≠ "ping") :
    wsLoopStep st cid (some t) = (st, [], false) := by
  unfold wsLoopStep handleSyncMessage
  cases hf : findConn st cid with
  | none => rfl
  | some c => simp

/-- Witness for the amended C9 at a concrete joined connection and the
unrecognized type "bogus". -/
theorem C9_amended_unknown_type_silent_witness :
    wsLoopStep ⟨[⟨"c1", none, true⟩], [("script:s1", ["c1"])]⟩ "c1" (some "bogus")
      = (⟨[⟨"c1", none, true⟩], [("script:s1", ["c1"])]⟩, [], false) :=
  C9_amended_unknown_type_silent ⟨[⟨"c1", none, true⟩], [("script:s1", ["c1"])]⟩
    "c1" "bogus" (by decide) (by decide) (by decide)

/-- `SyncMappingService.get_sentence_mapping` (sync_mapping_service.py
lines 96-132) with the cache value and the store read outcome as explicit
inputs: `dbRead = .error ()` is the supabase client raising. The except
block at lines 130-132 catches ANY exception, logs it, and returns `None`
— the same value returned when no active mapping exists. -/
def getMappingFromStore (cacheVal : Option Mapping)
    (dbRead : Except Unit (Option Mapping)) : Option Mapping :=
  match cacheVal with
  | some m => some m
  | none =>
    match dbRead with
    | .error _ => none
    | .ok none => none
    | .ok (some m) => some m

/-- `GET /sync/mappings/sentence/{id}` (api/v1/sync.py lines 85-109):
`None` from the service is returned to the client as a JSON `null` body
with HTTP 200 — never an error status on this path. -/
def apiGetSentenceMapping (cacheVal : Option Mapping)
    (dbRead : Except Unit (Option Mapping)) : Option Mapping :=
  getMappingFromStore cacheVal dbRead

/-- C10: on a cache miss, a failing store read makes get-active-mapping
return `none` instead of propagating the error, and the REST response is
identical to the one for a sentence with no active mapping — the caller
cannot distinguish the two cases. -/
theorem C10_store_failure_indistinguishable :
    getMappingFromStore none (.error ()) = none ∧
    getMappingFromStore none (.ok none) = none ∧
    apiGetSentenceMapping none (.error ()) = apiGetSentenceMapping none (.ok none) :=
  ⟨rfl, rfl, rfl⟩

end KikoSync
